import Mathlib

/-! Droplet impact driver (`impact2D/droplet_impact.c`)

A shallow embedding of the Basilisk driver: the compiled-in constants, the
dimensionless numbers computed by `main`, the events `init`, `log_status`,
`end`, `movie` and `adapt`, and the properties of them that the specification
states.

Conventions of the embedding.

* `double` quantities are exact rationals (`ℚ`); the geometric predicate of
  `init` is written over any ordered field so that it can be read over `ℝ`.
* `floor(log10(i))` for an `int i ≥ 1` is the exact integer logarithm
  `Nat.log 10 i`.
* A store outside a fixed-size buffer, and a stream operation on a null
  `FILE *`, are undefined in C; the embedding makes them observable as a
  failure (`none`, respectively `Except.error`).
* `sprintf(num_as_str, "%d", i)` is modelled by the digits it writes; the
  terminating NUL it places after them (one byte past the variable-length
  array `num_as_str[num_digits]`) is not tracked.
-/

namespace Droplet

/-! ## Constants -/

/-- Source: `#define MAX_DIGITS 8` -/
def MAX_DIGITS : Nat := 8

/-! ## The `movie` event: the zero-padded iteration index -/

/-- Source: `char img_index[MAX_DIGITS] = "00000000";` (eight characters, no terminator). -/
def img_index_init : List Char := ['0', '0', '0', '0', '0', '0', '0', '0']

/-- Source: `int num_digits = floor(log10(i)) + 1;` with the exact logarithm. -/
def num_digits (i : Nat) : Int := (Nat.log 10 i : Int) + 1

/-- Source: `sprintf(num_as_str, "%d", i);` for a non-negative `i`: the characters written
before the terminator. -/
def sprintf_d (i : Nat) : List Char := Nat.toDigits 10 i

/-- Source: `int start_ind = MAX_DIGITS - num_digits;` -/
def start_ind (i : Nat) : Int := (MAX_DIGITS : Int) - num_digits i

/-- The store `buf[k] = c` on a fixed-size buffer: `none` when `k` is not an index of `buf`. -/
def store (buf : List Char) (k : Int) (c : Char) : Option (List Char) :=
  if 0 ≤ k ∧ k < (buf.length : Int) then some (buf.set k.toNat c) else none

/-- Source: `for(int j=0; j<=num_digits-1; j++){ img_index[start_ind + j] = num_as_str[j]; }`
The first argument is the number of iterations still to run (`num_digits - j`),
the second is `j`. -/
def copy_loop (num_as_str : List Char) (start : Int) :
    Nat → Nat → List Char → Option (List Char)
  | 0, _, img_index => some img_index
  | n + 1, j, img_index =>
    match num_as_str.get? j with
    | none => none
    | some c =>
      match store img_index (start + (j : Int)) c with
      | none => none
      | some img_index1 => copy_loop num_as_str start n (j + 1) img_index1

/-- The contents of `img_index` when `movie` reaches the `sprintf` of the file
name, for iteration `i`; `none` when a store fell outside the buffer. -/
def movie_img_index (i : Nat) : Option (List Char) :=
  if i ≠ 0 then
    copy_loop (sprintf_d i) (start_ind i) (num_digits i).toNat 0 img_index_init
  else
    some img_index_init

/-- The decimal representation of `i`, left-padded with `'0'` to width 8
(the specification's description of the index string). -/
def zero_padded8 (i : Nat) : List Char := List.leftpad 8 '0' (Nat.repr i).data

/-- Fixed-width decimal digits of `n`, most significant first. -/
def fixed_digits : Nat → Nat → List Char
  | 0, _ => []
  | w + 1, n => fixed_digits w (n / 10) ++ [Nat.digitChar (n % 10)]

/-- The file name built by `sprintf(png_save_path, "%s/%s_t=%g.png", dirname, img_index, t)`.
`t_g` is the `%g` rendering of `t`.  `img_index` carries no terminator, so `%s` may
run on past its eight characters; `over` is whatever it picks up there. -/
def png_save_path (dirname img_index over t_g : List Char) : List Char :=
  dirname ++ ['/'] ++ (img_index ++ over) ++ ['_', 't', '='] ++ t_g ++ ['.', 'p', 'n', 'g']

/-! ## Compiled-in physical constants -/

/-- Source: `double drop_dia = 1e-3;` -/
def drop_dia : ℚ := 1 / 1000

/-- Source: `double SIGMA = 72.8e-3;` -/
def SIGMA : ℚ := 728 / 10000

/-- Source: `double box_length = 30e-3;` -/
def box_length : ℚ := 30 / 1000

/-- Source: `double start_height = 5e-3;` -/
def start_height : ℚ := 5 / 1000

/-- Source: `int MAXLEVEL = 8;` -/
def MAXLEVEL : Int := 8

/-- Source: `double uemax = 0.1;` -/
def uemax : ℚ := 1 / 10

/-- Source: `double u0 = 1.0;` -/
def u0 : ℚ := 1

/-- Source: `double t_end = 0.03;` -/
def t_end : ℚ := 3 / 100

/-- Basilisk's `sq(x)`, that is `x*x`. -/
def sq {K : Type} [Mul K] (x : K) : K := x * x

/-- C's `round`: to the nearest integer, halves away from zero. -/
def c_round (x : ℚ) : Int := if 0 ≤ x then ⌊x + 1 / 2⌋ else ⌈x - 1 / 2⌉

/-! ## State of a run -/

/-- A leaf cell of the quadtree: its centre and its refinement level. -/
structure Cell where
  x : ℚ
  y : ℚ
  level : Int
  deriving DecidableEq

/-- What goes wrong when a stream function is handed a null `FILE *`. -/
inductive Fault where
  | null_stream
  deriving DecidableEq, Repr

/-- An open stream on the log file. -/
structure FILE where
  fd : Nat
  deriving DecidableEq

/-- The globals the driver reads and writes, the console, the log file and the
fields on the mesh. -/
structure Sim where
  /-- densities and viscosities of `two-phase.h` -/
  rho1 : ℚ
  rho2 : ℚ
  mu1 : ℚ
  mu2 : ℚ
  /-- the surface tension `f.sigma` of `tension.h` -/
  f_sigma : ℚ
  Re : ℚ
  We : ℚ
  /-- what has been written to standard output, one entry per `printf` -/
  stdout : List String
  /-- content of `<dirname>/log.log`, one entry per `fputs` -/
  log : List String
  /-- whether `fopen` on the log file succeeds -/
  fopen_ok : Bool
  /-- the global `FILE *logfptr;` -/
  logfptr : Option FILE
  /-- the leaf cells -/
  mesh : List Cell
  f0 : Cell → ℚ
  f : Cell → ℚ
  u_y : Cell → ℚ

/-- The collaborators from Basilisk that `init` calls and that change the mesh or a
field: `refine(cond)` and `fraction(f0, expr)`. -/
structure Basilisk where
  refine : (Cell → Bool) → List Cell → List Cell
  fraction : (ℚ → ℚ → ℚ) → List Cell → Cell → ℚ

/-! ## Streams -/

/-- A `printf` of an already formatted string. -/
def printf (str : String) (s : Sim) : Sim := { s with stdout := s.stdout ++ [str] }

/-- Source: `logfptr = fopen(logfile, "w")`: a null pointer when the open fails, else the
file is truncated. -/
def fopen_w (s : Sim) : Sim :=
  if s.fopen_ok then { s with logfptr := some ⟨3⟩, log := [] } else { s with logfptr := none }

/-- Source: `logfptr = fopen(logfile, "a")`: a null pointer when the open fails. -/
def fopen_a (s : Sim) : Sim :=
  if s.fopen_ok then { s with logfptr := some ⟨3⟩ } else { s with logfptr := none }

/-- Source: `fputs(str, logfptr)`; a null stream is a fault. -/
def fputs (str : String) (s : Sim) : Except Fault Sim :=
  match s.logfptr with
  | none => Except.error Fault.null_stream
  | some _ => Except.ok { s with log := s.log ++ [str] }

/-- Source: `fclose(logfptr)`; a null stream is a fault; the variable keeps its (now dangling) value. -/
def fclose (s : Sim) : Except Fault Sim :=
  match s.logfptr with
  | none => Except.error Fault.null_stream
  | some _ => Except.ok s

/-! ## `main` -/

/-- The body of `main` up to the call of `run()`.  The grid set-up (`init_grid`,
`origin`, `size`) and the creation of the output directory are left out. -/
def main (s : Sim) : Except Fault Sim :=
  let s1 := { s with rho1 := 997 }
  let s2 := { s1 with rho2 := 1293 / 1000 }
  let s3 := { s2 with mu1 := 89 / 100000 }
  let s4 := { s3 with mu2 := 18 / 1000000 }
  match fclose (fopen_w s4) with
  | Except.error e => Except.error e
  | Except.ok s5 =>
    let s6 := { s5 with f_sigma := SIGMA }
    let s7 := { s6 with Re := s6.rho1 * u0 * drop_dia / s6.mu1 }
    Except.ok { s7 with We := s7.rho1 * drop_dia * sq u0 / s7.f_sigma }

/-! ## Events -/

/-- The text of `printf("Re: %d, We:%d\n", (int) round(Re), (int) round(We))`. -/
def banner (s : Sim) : String :=
  "Re: " ++ toString (c_round s.Re) ++ ", We:" ++ toString (c_round s.We) ++ "\n"

/-- The text of `sprintf(donestr, "Re:%d, We:%d\n", (int) round(Re), (int) round(We))`. -/
def donestr (s : Sim) : String :=
  "Re:" ++ toString (c_round s.Re) ++ ", We:" ++ toString (c_round s.We) ++ "\n"

/-- The text of `sprintf(logstr, "%d %g\n", i, t)`; `t_g` is the `%g` rendering of `t`. -/
def logstr (i : Nat) (t_g : String) : String := toString i ++ " " ++ t_g ++ "\n"

/-- The condition handed to `refine` in `init`:
`(sq(x)+sq(y-start_height) < 2*sq(drop_dia/2)) && (level<MAXLEVEL)`. -/
def refine_cond {K : Type} [LinearOrderedField K] (start_height drop_dia : K)
    (MAXLEVEL : Int) (x y : K) (level : Int) : Prop :=
  sq x + sq (y - start_height) < 2 * sq (drop_dia / 2) ∧ level < MAXLEVEL

instance {K : Type} [LinearOrderedField K] (h d : K) (m : Int) (x y : K) (l : Int) :
    Decidable (refine_cond h d m x y l) := by
  unfold refine_cond
  infer_instance

/-- The level-set handed to `fraction` in `init`:
`sq(drop_dia/2) - sq(x)-sq(y-start_height)`. -/
def interface_levelset (x y : ℚ) : ℚ := sq (drop_dia / 2) - sq x - sq (y - start_height)

/-- The body of the `foreach()` of `init`: `f[] = f0[]; u.y[] = -u0*f[];` -/
def init_cell (c : Cell) (s : Sim) : Sim :=
  let s1 := { s with f := Function.update s.f c (s.f0 c) }
  { s1 with u_y := Function.update s1.u_y c (-u0 * s1.f c) }

/-- Basilisk's `foreach()`: the body is run once for each leaf cell. -/
def foreach_cell (body : Cell → Sim → Sim) (s : Sim) : Sim :=
  s.mesh.foldl (fun acc c => body c acc) s

/-- Source: `event init(t=0)`.  The attribute assignment `f0.refine = f0.prolongation`
and `restriction` (values on coarse cells) and `boundary` (ghost cells) do not touch a
leaf value and are left out. -/
def init (bas : Basilisk) (s : Sim) : Sim :=
  let s1 := printf (banner s) s
  let cond : Cell → Bool :=
    fun c => decide (refine_cond start_height drop_dia MAXLEVEL c.x c.y c.level)
  let s2 := { s1 with mesh := bas.refine cond s1.mesh }
  let s3 := { s2 with f0 := bas.fraction interface_levelset s2.mesh }
  foreach_cell init_cell s3

/-- Source: `event log_status(i++)` -/
def log_status (i : Nat) (t_g : String) (s : Sim) : Except Fault Sim :=
  match fputs (logstr i t_g) (fopen_a s) with
  | Except.error e => Except.error e
  | Except.ok s1 => fclose s1

/-- Source: `event end(t=t_end)` -/
def end_event (s : Sim) : Except Fault Sim :=
  let s1 := printf (banner s) s
  match fputs (donestr s1) (fopen_a s1) with
  | Except.error e => Except.error e
  | Except.ok s2 => fclose s2

/-- The scalar fields of the solver. -/
inductive Scalar where
  | f
  | p
  | u_x
  | u_y
  | u_z
  deriving DecidableEq, Repr

/-- The components of the vector `u` on a grid of the given dimension. -/
def vector_u (dimension : Nat) : List Scalar :=
  [Scalar.u_x, Scalar.u_y, Scalar.u_z].take dimension

/-- No grid header is included, so the grid is Basilisk's default quadtree. -/
def dimension : Nat := 2

/-- The arguments of a call of `adapt_wavelet`. -/
structure AdaptCall where
  fields : List Scalar
  max : List ℚ
  maxlevel : Int
  deriving DecidableEq

/-- Source: `event adapt(i++)`:
`adapt_wavelet({f, p, u}, (double[]){0.01,0.01,0.01,0.01,0.01}, maxlevel=MAXLEVEL);` -/
def adapt : AdaptCall :=
  { fields := [Scalar.f, Scalar.p] ++ vector_u dimension
    max := [1 / 100, 1 / 100, 1 / 100, 1 / 100, 1 / 100]
    maxlevel := MAXLEVEL }

/-- Modelled from the spec: the adaptation engine (`adapt_wavelet`, not part of the
driver) compares each tracked field with "its configured tolerance", the entry of
the tolerance vector at the field's position. -/
def field_tolerances (call : AdaptCall) : List (Scalar × ℚ) := call.fields.zip call.max

/-! ## Scheduling -/

/-- The events of the driver. -/
inductive EventId where
  | init
  | log_status
  | end_event
  | movie
  | adapt
  deriving DecidableEq, Repr

/-- The trigger written in an event's parentheses. -/
inductive Trigger where
  /-- written `t = t0` -/
  | at_time (t0 : ℚ)
  /-- written `i++` -/
  | each_iteration
  /-- written `t += dt` -/
  | each_interval (dt : ℚ)
  deriving DecidableEq

/-- The events in the order in which the source file defines them, with their triggers. -/
def events : List (EventId × Trigger) :=
  [ (EventId.init, Trigger.at_time 0),
    (EventId.log_status, Trigger.each_iteration),
    (EventId.end_event, Trigger.at_time t_end),
    (EventId.movie, Trigger.each_interval (1 / 10000)),
    (EventId.adapt, Trigger.each_iteration) ]

/-- Modelled from the spec: the event macros and the run loop belong to Basilisk.
A trigger is due on the tick `(i, t)` when `t` is its time, on every iteration, or
when `t` is a multiple of its interval. -/
def Trigger.due (t : ℚ) : Trigger → Bool
  | Trigger.at_time t0 => decide (t = t0)
  | Trigger.each_iteration => true
  | Trigger.each_interval dt => decide ((t / dt).den = 1 ∧ 0 ≤ t)

/-- Modelled from the spec: "when several events are due on the same tick, they fire
in registration order". -/
def fired (t : ℚ) : List EventId := (events.filter (fun e => e.2.due t)).map Prod.fst

/-! ## Orders and formulas of the specification -/

/-- The lexicographic (character-wise) order on character lists. -/
def lex_lt (a b : List Char) : Prop := List.Lex (fun c d : Char => c < d) a b

instance (a b : List Char) : Decidable (lex_lt a b) := by
  unfold lex_lt
  infer_instance

/-- Reynolds number as the specification writes it: `ρ · U₀ · D / μ`. -/
def reynolds (rho U D mu : ℚ) : ℚ := rho * U * D / mu

/-- Weber number as the specification writes it: `ρ · D · U₀² / σ`. -/
def weber (rho D U sigma : ℚ) : ℚ := rho * D * U ^ 2 / sigma

/-! ## Concrete states for evaluation -/

/-- A state at program start: nothing printed, an empty log, no stream open, all
fields zero.  `main` overwrites the fluid parameters. -/
def sim_start (fopen_ok : Bool) (mesh : List Cell) : Sim :=
  { rho1 := 1, rho2 := 1, mu1 := 0, mu2 := 0, f_sigma := 0, Re := 0, We := 0
    stdout := [], log := [], fopen_ok := fopen_ok, logfptr := none
    mesh := mesh, f0 := fun _ => 0, f := fun _ => 0, u_y := fun _ => 0 }

/-- A stand-in for Basilisk on which `init` can be evaluated: `refine` leaves the mesh
as it is and `fraction` is 1 where the level-set is positive at the cell centre, else 0. -/
def bas_sharp : Basilisk :=
  { refine := fun _ mesh => mesh
    fraction := fun phi _ c => if 0 < phi c.x c.y then 1 else 0 }

/-- Two cells of level 6: one at the droplet centre, one at the bottom of the box. -/
def mesh2 : List Cell := [⟨0, 5 / 1000, 6⟩, ⟨0, 0, 6⟩]

end Droplet

namespace Droplet

/-! ## Decimal digits -/

theorem toDigitsCore_acc (fuel : Nat) : ∀ (n : Nat) (acc : List Char),
    Nat.toDigitsCore 10 fuel n acc = Nat.toDigitsCore 10 fuel n [] ++ acc := by
  induction fuel with
  | zero => intro n acc; simp [Nat.toDigitsCore]
  | succ f ih =>
    intro n acc
    simp only [Nat.toDigitsCore]
    by_cases h : n / 10 = 0
    · simp [h]
    · simp only [h, if_false]
      rw [ih (n / 10) (Nat.digitChar (n % 10) :: acc), ih (n / 10) [Nat.digitChar (n % 10)]]
      simp

theorem toDigitsCore_fuel (f1 : Nat) : ∀ (f2 n : Nat), n < f1 → n < f2 →
    Nat.toDigitsCore 10 f1 n [] = Nat.toDigitsCore 10 f2 n [] := by
  induction f1 with
  | zero => intro f2 n h; omega
  | succ f ih =>
    intro f2 n h1 h2
    obtain ⟨g, rfl⟩ : ∃ g, f2 = g + 1 := ⟨f2 - 1, by omega⟩
    simp only [Nat.toDigitsCore]
    by_cases h : n / 10 = 0
    · simp [h]
    · simp only [h, if_false]
      rw [toDigitsCore_acc f, toDigitsCore_acc g, ih g (n / 10) (by omega) (by omega)]

theorem toDigits_lt_ten (n : Nat) (h : n < 10) : Nat.toDigits 10 n = [Nat.digitChar n] := by
  have h0 : n / 10 = 0 := by omega
  have h1 : n % 10 = n := by omega
  simp [Nat.toDigits, Nat.toDigitsCore, h0, h1]

theorem toDigits_ten_le (n : Nat) (h : 10 ≤ n) :
    Nat.toDigits 10 n = Nat.toDigits 10 (n / 10) ++ [Nat.digitChar (n % 10)] := by
  have h0 : n / 10 ≠ 0 := by omega
  have hl : Nat.toDigits 10 n = Nat.toDigitsCore 10 (n + 1) n [] := rfl
  have hr : Nat.toDigits 10 (n / 10) = Nat.toDigitsCore 10 (n / 10 + 1) (n / 10) [] := rfl
  rw [hl, hr]
  simp only [Nat.toDigitsCore, h0, if_false]
  rw [toDigitsCore_acc, toDigitsCore_fuel n (n / 10 + 1) (n / 10) (by omega) (by omega)]
  simp only [Nat.toDigitsCore]

theorem toDigits_length (n : Nat) : (Nat.toDigits 10 n).length = Nat.log 10 n + 1 := by
  induction n using Nat.strong_induction_on with
  | _ n ih =>
    by_cases h : n < 10
    · rw [toDigits_lt_ten n h, Nat.log_of_lt h]; rfl
    · have h10 : 10 ≤ n := by omega
      rw [toDigits_ten_le n h10, List.length_append, ih (n / 10) (by omega),
        Nat.log_of_one_lt_of_le (by decide) h10]
      rfl

theorem fixed_digits_length (w n : Nat) : (fixed_digits w n).length = w := by
  induction w generalizing n with
  | zero => rfl
  | succ w ih => simp [fixed_digits, ih]

theorem fixed_digits_zero (w : Nat) : fixed_digits w 0 = List.replicate w '0' := by
  induction w with
  | zero => rfl
  | succ w ih =>
    simp only [fixed_digits, Nat.zero_div, Nat.zero_mod, ih]
    rw [List.replicate_succ']
    rfl

theorem leftpad_toDigits (w : Nat) : ∀ n : Nat, n < 10 ^ (w + 1) →
    List.leftpad (w + 1) '0' (Nat.toDigits 10 n) = fixed_digits (w + 1) n := by
  induction w with
  | zero =>
    intro n hn
    have h : n < 10 := by simpa using hn
    rw [toDigits_lt_ten n h]
    have h1 : n % 10 = n := by omega
    simp [List.leftpad, fixed_digits, h1]
  | succ w ih =>
    intro n hn
    have hq : n / 10 < 10 ^ (w + 1) := by
      rw [Nat.div_lt_iff_lt_mul (by decide)]
      calc n < 10 ^ (w + 1 + 1) := hn
        _ = 10 ^ (w + 1) * 10 := by ring
    by_cases h : n < 10
    · rw [toDigits_lt_ten n h]
      have h0 : n / 10 = 0 := by omega
      have h1 : n % 10 = n := by omega
      simp only [fixed_digits, List.leftpad, h0, h1, List.length_singleton, Nat.zero_div,
        Nat.zero_mod]
      have := fixed_digits_zero w
      simp only [Nat.add_sub_cancel, this]
      rw [List.replicate_succ' w '0']
      simp
      rfl
    · have h10 : 10 ≤ n := by omega
      have hfix : fixed_digits (w + 1 + 1) n
          = fixed_digits (w + 1) (n / 10) ++ [Nat.digitChar (n % 10)] := rfl
      rw [toDigits_ten_le n h10, hfix, ← ih (n / 10) hq]
      simp [List.leftpad]

/-! ## The copy loop of `movie` -/

theorem take_set_self {α : Type} (c : α) : ∀ (l : List α) (k : Nat),
    (l.set k c).take k = l.take k := by
  intro l
  induction l with
  | nil => intro k; simp
  | cons a l ih =>
    intro k
    cases k with
    | zero => simp
    | succ k => simp [ih]

theorem take_succ_set {α : Type} (l : List α) (k : Nat) (c : α) (h : k < l.length) :
    (l.set k c).take (k + 1) = l.take k ++ [c] := by
  rw [List.take_succ, take_set_self]
  simp [h]

theorem store_in_bounds (buf : List Char) (k : Nat) (c : Char) (h : k < buf.length) :
    store buf (k : Int) c = some (buf.set k c) := by
  have h1 : (0 : Int) ≤ (k : Int) ∧ (k : Int) < (buf.length : Int) :=
    ⟨Int.ofNat_nonneg k, by exact_mod_cast h⟩
  simp [store, h1]

theorem store_negative (buf : List Char) (k : Int) (c : Char) (h : k < 0) :
    store buf k c = none := by
  have h1 : ¬ (0 ≤ k ∧ k < (buf.length : Int)) := by omega
  simp [store, h1]

/-- When the digits fit (`s + ds.length` is the buffer length), the loop started at
`j` with `ds.length - j` iterations to go overwrites exactly the tail of the buffer. -/
theorem copy_loop_fits (ds : List Char) (s : Nat) : ∀ (n j : Nat) (buf : List Char),
    j + n = ds.length → buf.length = s + ds.length →
    copy_loop ds (s : Int) n j buf = some (buf.take (s + j) ++ ds.drop j) := by
  intro n
  induction n with
  | zero =>
    intro j buf hj hb
    have : j = ds.length := by omega
    subst this
    simp [copy_loop, ← hb]
  | succ n ih =>
    intro j buf hj hb
    have hjl : j < ds.length := by omega
    have hk : s + j < buf.length := by omega
    have hget : ds.get? j = some ds[j] := by
      rw [List.get?_eq_getElem?]
      exact List.getElem?_eq_getElem hjl
    have hst : store buf ((s : Int) + (j : Int)) ds[j] = some (buf.set (s + j) ds[j]) := by
      have := store_in_bounds buf (s + j) ds[j] hk
      rwa [Nat.cast_add] at this
    simp only [copy_loop, hget, hst]
    rw [ih (j + 1) (buf.set (s + j) ds[j]) (by omega) (by simpa using hb)]
    have e1 : s + (j + 1) = (s + j) + 1 := by omega
    rw [e1, take_succ_set buf (s + j) ds[j] hk, List.drop_eq_getElem_cons hjl]
    simp

theorem num_digits_eq_length (i : Nat) : num_digits i = ((sprintf_d i).length : Int) := by
  simp [num_digits, sprintf_d, toDigits_length]

theorem sprintf_d_length_le (i : Nat) (h : i < 10 ^ 8) : (sprintf_d i).length ≤ 8 := by
  by_cases h0 : i = 0
  · subst h0; decide
  · have := (Nat.lt_pow_iff_log_lt (by decide : 1 < 10) h0).1 h
    simp only [sprintf_d, toDigits_length]
    omega

theorem sprintf_d_length_gt (i : Nat) (h : 10 ^ 8 ≤ i) : 8 < (sprintf_d i).length := by
  have h0 : i ≠ 0 := by
    intro h0
    subst h0
    simp at h
  have := (Nat.pow_le_iff_le_log (by decide : 1 < 10) h0).1 h
  simp only [sprintf_d, toDigits_length]
  omega

theorem sprintf_d_length_pos (i : Nat) : 0 < (sprintf_d i).length := by
  simp [sprintf_d, toDigits_length]

theorem movie_img_index_eq (i : Nat) (h : i < 10 ^ 8) :
    movie_img_index i = some (List.leftpad 8 '0' (sprintf_d i)) := by
  by_cases h0 : i = 0
  · subst h0; decide
  · have hle := sprintf_d_length_le i h
    have hs : start_ind i = ((8 - (sprintf_d i).length : Nat) : Int) := by
      simp only [start_ind, MAX_DIGITS, num_digits_eq_length]
      omega
    have hn : (num_digits i).toNat = (sprintf_d i).length := by
      simp [num_digits_eq_length]
    simp only [movie_img_index, h0, ne_eq, not_false_eq_true, if_true, hs, hn]
    rw [copy_loop_fits (sprintf_d i) (8 - (sprintf_d i).length) (sprintf_d i).length 0
      img_index_init (by omega) (by simp [img_index_init]; omega)]
    have htake : ∀ k, k ≤ 8 → img_index_init.take k = List.replicate k '0' := by
      intro k hk
      interval_cases k <;> rfl
    simp [List.leftpad, htake (8 - (sprintf_d i).length) (by omega)]

theorem movie_img_index_overflow (i : Nat) (h : 10 ^ 8 ≤ i) : movie_img_index i = none := by
  have h0 : i ≠ 0 := by
    intro h0
    subst h0
    simp at h
  have hgt := sprintf_d_length_gt i h
  obtain ⟨n, hn⟩ : ∃ n, (num_digits i).toNat = n + 1 :=
    ⟨(sprintf_d i).length - 1, by simp [num_digits_eq_length]; omega⟩
  obtain ⟨c, hc⟩ : ∃ c, (sprintf_d i).get? 0 = some c := by
    cases hd : sprintf_d i with
    | nil => simp [hd] at hgt
    | cons c t => exact ⟨c, rfl⟩
  have hneg : start_ind i + ((0 : Nat) : Int) < 0 := by
    simp only [start_ind, MAX_DIGITS, num_digits_eq_length]
    omega
  simp only [movie_img_index, h0, ne_eq, not_false_eq_true, if_true, hn, copy_loop, hc,
    store_negative _ _ _ hneg]

/-! ## Character-wise order of fixed-width digit strings -/

theorem lex_lt_append_left (l : List Char) {a b : List Char} (h : lex_lt a b) :
    lex_lt (l ++ a) (l ++ b) := List.Lex.append_left _ h l

theorem lex_lt_append_of_length_eq {l1 l2 : List Char} (h : lex_lt l1 l2)
    (hl : l1.length = l2.length) (a b : List Char) : lex_lt (l1 ++ a) (l2 ++ b) := by
  unfold lex_lt at h ⊢
  induction h with
  | nil => simp at hl
  | cons _ ih => exact List.Lex.cons (ih (by simpa using hl))
  | rel hab => exact List.Lex.rel hab

theorem digitChar_lt (a b : Nat) (hab : a < b) (hb : b < 10) :
    Nat.digitChar a < Nat.digitChar b := by
  interval_cases b <;> interval_cases a <;> decide

theorem fixed_digits_lt (w : Nat) : ∀ i j : Nat, i < j → j < 10 ^ w →
    lex_lt (fixed_digits w i) (fixed_digits w j) := by
  induction w with
  | zero => intro i j hij hj; simp at hj; omega
  | succ w ih =>
    intro i j hij hj
    have hq : j / 10 < 10 ^ w := by
      rw [Nat.div_lt_iff_lt_mul (by decide)]
      calc j < 10 ^ (w + 1) := hj
        _ = 10 ^ w * 10 := by ring
    simp only [fixed_digits]
    by_cases hlt : i / 10 < j / 10
    · exact lex_lt_append_of_length_eq (ih _ _ hlt hq)
        (by simp [fixed_digits_length]) _ _
    · have heq : i / 10 = j / 10 := by omega
      rw [heq]
      apply lex_lt_append_left
      exact List.Lex.rel (digitChar_lt (i % 10) (j % 10) (by omega) (Nat.mod_lt _ (by decide)))

theorem leftpad8_sprintf_d (i : Nat) (h : i < 10 ^ 8) :
    List.leftpad 8 '0' (sprintf_d i) = fixed_digits 8 i := leftpad_toDigits 7 i h

theorem movie_img_index_fixed (i : Nat) (h : i < 10 ^ 8) :
    movie_img_index i = some (fixed_digits 8 i) := by
  rw [movie_img_index_eq i h, leftpad8_sprintf_d i h]

/-! ## The claims about `movie` -/

/-- C1: for every `i < 10^8` the buffer `img_index` of `movie` ends up holding the
decimal representation of `i` left-padded with `'0'` to width 8; it has 8 characters;
`i = 42` gives `"00000042"`; `i = 0` skips the substitution and gives `"00000000"`. -/
theorem movie_img_index_zero_padded :
    (∀ i : Nat, i < 10 ^ 8 →
      movie_img_index i = some (zero_padded8 i) ∧ (zero_padded8 i).length = 8) ∧
    movie_img_index 42 = some "00000042".data ∧
    movie_img_index 0 = some "00000000".data ∧
    movie_img_index 0 = some img_index_init := by
  have key : ∀ i : Nat, i < 10 ^ 8 →
      movie_img_index i = some (zero_padded8 i) ∧ (zero_padded8 i).length = 8 := by
    intro i h
    have hz : zero_padded8 i = List.leftpad 8 '0' (sprintf_d i) := rfl
    refine ⟨by rw [hz]; exact movie_img_index_eq i h, ?_⟩
    rw [hz, leftpad8_sprintf_d i h, fixed_digits_length]
  refine ⟨key, ?_, ?_, rfl⟩
  · rw [(key 42 (by norm_num)).1]; decide
  · rw [(key 0 (by norm_num)).1]; decide

/-- C1, at `i = 1234567`. -/
theorem movie_img_index_zero_padded_witness :
    1234567 < 10 ^ 8 ∧ movie_img_index 1234567 = some (zero_padded8 1234567) ∧
      (zero_padded8 1234567).length = 8 :=
  ⟨by norm_num, movie_img_index_zero_padded.1 1234567 (by norm_num)⟩

/-- C2: for `i < j < 10^8` the index string built for `i` is strictly below the one
built for `j` in the character-wise order, and so is the frame file name, whatever
the directory and the rendering of the time. -/
theorem movie_index_order (i j : Nat) (hij : i < j) (hj : j < 10 ^ 8) :
    ∃ si sj : List Char, movie_img_index i = some si ∧ movie_img_index j = some sj ∧
      lex_lt si sj ∧
      ∀ dirname oi oj ti tj : List Char,
        lex_lt (png_save_path dirname si oi ti) (png_save_path dirname sj oj tj) := by
  have hlt := fixed_digits_lt 8 i j hij hj
  refine ⟨fixed_digits 8 i, fixed_digits 8 j, movie_img_index_fixed i (by omega),
    movie_img_index_fixed j hj, hlt, ?_⟩
  intro dirname oi oj ti tj
  simp only [png_save_path, List.append_assoc]
  apply lex_lt_append_left
  apply lex_lt_append_left
  exact lex_lt_append_of_length_eq hlt (by simp [fixed_digits_length]) _ _

/-- C2, at `i = 9`, `j = 10`. -/
theorem movie_index_order_witness :
    9 < 10 ∧ 10 < 10 ^ 8 ∧
    ∃ si sj : List Char, movie_img_index 9 = some si ∧ movie_img_index 10 = some sj ∧
      lex_lt si sj ∧
      ∀ dirname oi oj ti tj : List Char,
        lex_lt (png_save_path dirname si oi ti) (png_save_path dirname sj oj tj) :=
  ⟨by decide, by norm_num, movie_index_order 9 10 (by decide) (by norm_num)⟩

/-- C10: for `i ≥ 1` every write position `start_ind + j` of the loop lies inside the
8-character buffer exactly when `i < 10^8`; for `i ≥ 10^8` the start index is negative
and the very first store falls outside the buffer. -/
theorem movie_writes_in_bounds_iff (i : Nat) (hi : 1 ≤ i) :
    movie_img_index i
      = copy_loop (sprintf_d i) (start_ind i) (num_digits i).toNat 0 img_index_init ∧
    ((∀ j : Int, 0 ≤ j → j < num_digits i →
        0 ≤ start_ind i + j ∧ start_ind i + j < (MAX_DIGITS : Int)) ↔ i < 10 ^ 8) ∧
    (10 ^ 8 ≤ i → start_ind i < 0 ∧
      (∀ c : Char, store img_index_init (start_ind i + 0) c = none) ∧
      movie_img_index i = none) := by
  have hpos := sprintf_d_length_pos i
  have hne : i ≠ 0 := by omega
  refine ⟨by simp [movie_img_index, hne], ?_⟩
  constructor
  · constructor
    · intro h
      by_contra hge
      have hgt := sprintf_d_length_gt i (by omega)
      have := (h 0 (le_refl _) (by rw [num_digits_eq_length]; omega)).1
      simp only [start_ind, MAX_DIGITS, num_digits_eq_length] at this
      omega
    · intro h j hj0 hj
      have hle := sprintf_d_length_le i h
      simp only [start_ind, MAX_DIGITS, num_digits_eq_length] at *
      omega
  · intro h
    have hgt := sprintf_d_length_gt i h
    have hneg : start_ind i < 0 := by
      simp only [start_ind, MAX_DIGITS, num_digits_eq_length]
      omega
    exact ⟨hneg, fun c => store_negative _ _ c (by omega), movie_img_index_overflow i h⟩

/-- C10, at `i = 10^8`. -/
theorem movie_writes_in_bounds_iff_witness :
    1 ≤ 10 ^ 8 ∧ start_ind (10 ^ 8) < 0 ∧ movie_img_index (10 ^ 8) = none :=
  ⟨by norm_num,
   ((movie_writes_in_bounds_iff (10 ^ 8) (by norm_num)).2.2 (le_refl _)).1,
   ((movie_writes_in_bounds_iff (10 ^ 8) (by norm_num)).2.2 (le_refl _)).2.2⟩

/-! ## `main`: the dimensionless numbers -/

theorem main_ok (s : Sim) (h : s.fopen_ok = true) :
    main s = Except.ok
      { s with
        rho1 := 997, rho2 := 1293 / 1000, mu1 := 89 / 100000, mu2 := 18 / 1000000
        logfptr := some ⟨3⟩, log := [], f_sigma := SIGMA
        Re := 997 * u0 * drop_dia / (89 / 100000)
        We := 997 * drop_dia * sq u0 / SIGMA } := by
  simp [main, fopen_w, fclose, h]

theorem c_round_Re : c_round (997 * u0 * drop_dia / (89 / 100000)) = 1120 := by
  have h : (997 * u0 * drop_dia / (89 / 100000) : ℚ) = 99700 / 89 := by
    norm_num [u0, drop_dia]
  rw [h, c_round, if_pos (by norm_num), Int.floor_eq_iff]
  constructor <;> norm_num

theorem c_round_We : c_round (997 * drop_dia * sq u0 / SIGMA) = 14 := by
  have h : (997 * drop_dia * sq u0 / SIGMA : ℚ) = 9970 / 728 := by
    norm_num [u0, drop_dia, sq, SIGMA]
  rw [h, c_round, if_pos (by norm_num), Int.floor_eq_iff]
  constructor <;> norm_num

/-- C3: `main` leaves `Re = rho1 * u0 * drop_dia / mu1` and
`We = rho1 * drop_dia * u0^2 / sigma`, the specification's formulas applied to the five
physical inputs and to nothing else of the state; with the compiled-in values `Re`
rounds to 1120. -/
theorem main_Re_We (s : Sim) (h : s.fopen_ok = true) :
    ∃ s1 : Sim, main s = Except.ok s1 ∧
      s1.Re = s1.rho1 * u0 * drop_dia / s1.mu1 ∧
      s1.We = s1.rho1 * drop_dia * u0 ^ 2 / s1.f_sigma ∧
      s1.Re = reynolds s1.rho1 u0 drop_dia s1.mu1 ∧
      s1.We = weber s1.rho1 drop_dia u0 s1.f_sigma ∧
      s1.rho1 = 997 ∧ u0 = 1 ∧ drop_dia = 1 / 1000 ∧ s1.mu1 = 89 / 100000 ∧
      s1.f_sigma = SIGMA ∧
      s1.Re = reynolds 997 1 (1 / 1000) (89 / 100000) ∧
      c_round s1.Re = 1120 := by
  refine ⟨_, main_ok s h, ?_, ?_, ?_, ?_, rfl, rfl, rfl, rfl, rfl, ?_, c_round_Re⟩
  · rfl
  · simp [sq, pow_two]
  · rfl
  · simp [weber, sq, pow_two]
  · simp [reynolds, u0, drop_dia]

/-- C3, from the start state with a log file that can be opened. -/
theorem main_Re_We_witness :
    (sim_start true mesh2).fopen_ok = true ∧
    ∃ s1 : Sim, main (sim_start true mesh2) = Except.ok s1 ∧
      s1.Re = s1.rho1 * u0 * drop_dia / s1.mu1 ∧
      s1.We = s1.rho1 * drop_dia * u0 ^ 2 / s1.f_sigma ∧
      s1.Re = reynolds s1.rho1 u0 drop_dia s1.mu1 ∧
      s1.We = weber s1.rho1 drop_dia u0 s1.f_sigma ∧
      s1.rho1 = 997 ∧ u0 = 1 ∧ drop_dia = 1 / 1000 ∧ s1.mu1 = 89 / 100000 ∧
      s1.f_sigma = SIGMA ∧
      s1.Re = reynolds 997 1 (1 / 1000) (89 / 100000) ∧
      c_round s1.Re = 1120 :=
  ⟨rfl, main_Re_We (sim_start true mesh2) rfl⟩

/-! ## `init`: the loop over the cells -/

/-- What `init` establishes in a cell. -/
theorem init_cell_at (c : Cell) (s : Sim) :
    (init_cell c s).f c = s.f0 c ∧ (init_cell c s).u_y c = -u0 * s.f0 c := by
  simp [init_cell]

theorem init_cell_other (c d : Cell) (s : Sim) (h : d ≠ c) :
    (init_cell c s).f d = s.f d ∧ (init_cell c s).u_y d = s.u_y d := by
  simp [init_cell, Function.update_noteq h]

theorem init_cell_frame (c : Cell) (s : Sim) :
    (init_cell c s).f0 = s.f0 ∧ (init_cell c s).mesh = s.mesh ∧
    (init_cell c s).stdout = s.stdout ∧ (init_cell c s).log = s.log := by
  simp [init_cell]

theorem foldl_init_cell (cells : List Cell) : ∀ s : Sim,
    (cells.foldl (fun acc c => init_cell c acc) s).f0 = s.f0 ∧
    (cells.foldl (fun acc c => init_cell c acc) s).mesh = s.mesh ∧
    (cells.foldl (fun acc c => init_cell c acc) s).stdout = s.stdout ∧
    (cells.foldl (fun acc c => init_cell c acc) s).log = s.log ∧
    ∀ d : Cell, (d ∈ cells ∨ (s.f d = s.f0 d ∧ s.u_y d = -u0 * s.f0 d)) →
      (cells.foldl (fun acc c => init_cell c acc) s).f d = s.f0 d ∧
      (cells.foldl (fun acc c => init_cell c acc) s).u_y d = -u0 * s.f0 d := by
  induction cells with
  | nil =>
    intro s
    refine ⟨rfl, rfl, rfl, rfl, ?_⟩
    intro d hd
    rcases hd with hd | hd
    · simp at hd
    · exact hd
  | cons a cells ih =>
    intro s
    obtain ⟨h0, hm, hso, hlog, hcell⟩ := ih (init_cell a s)
    obtain ⟨f0a, ma, soa, loga⟩ := init_cell_frame a s
    simp only [List.foldl_cons]
    refine ⟨h0.trans f0a, hm.trans ma, hso.trans soa, hlog.trans loga, ?_⟩
    intro d hd
    have hstep : d ∈ cells ∨ ((init_cell a s).f d = (init_cell a s).f0 d ∧
        (init_cell a s).u_y d = -u0 * (init_cell a s).f0 d) := by
      by_cases hda : d = a
      · subst hda
        right
        rw [f0a]
        exact init_cell_at d s
      · rcases hd with hd | hd
        · left
          simpa [hda] using hd
        · right
          obtain ⟨e1, e2⟩ := init_cell_other a d s hda
          rw [f0a, e1, e2]
          exact hd
    have := hcell d hstep
    rwa [f0a] at this

theorem init_frame (bas : Basilisk) (s : Sim) :
    (init bas s).stdout = s.stdout ++ [banner s] ∧ (init bas s).log = s.log ∧
    (init bas s).mesh = bas.refine
      (fun c => decide (refine_cond start_height drop_dia MAXLEVEL c.x c.y c.level)) s.mesh := by
  simp only [init, foreach_cell]
  obtain ⟨_, hm, hso, hlog, _⟩ := foldl_init_cell
    (bas.refine (fun c => decide (refine_cond start_height drop_dia MAXLEVEL c.x c.y c.level))
      (printf (banner s) s).mesh)
    { printf (banner s) s with
      mesh := bas.refine
        (fun c => decide (refine_cond start_height drop_dia MAXLEVEL c.x c.y c.level))
        (printf (banner s) s).mesh
      f0 := bas.fraction interface_levelset
        (bas.refine
          (fun c => decide (refine_cond start_height drop_dia MAXLEVEL c.x c.y c.level))
          (printf (banner s) s).mesh) }
  exact ⟨hso, hlog, hm⟩

/-- C8: after `init`, in every cell of the mesh the live fraction `f` equals the seeded
fraction `f0` and `u.y` equals `-u0 * f0`; so `u.y = -u0` where the fraction is 1 and
`u.y = 0` where it is 0. -/
theorem init_fields (bas : Basilisk) (s : Sim) (c : Cell) (hc : c ∈ (init bas s).mesh) :
    (init bas s).f c = (init bas s).f0 c ∧
    (init bas s).u_y c = -u0 * (init bas s).f0 c ∧
    ((init bas s).f0 c = 1 → (init bas s).u_y c = -u0) ∧
    ((init bas s).f0 c = 0 → (init bas s).u_y c = 0) := by
  have hmesh := (init_frame bas s).2.2
  rw [hmesh] at hc
  have key : (init bas s).f c = (init bas s).f0 c ∧
      (init bas s).u_y c = -u0 * (init bas s).f0 c := by
    simp only [init, foreach_cell]
    obtain ⟨h0, _, _, _, hcell⟩ := foldl_init_cell
      (bas.refine (fun c => decide (refine_cond start_height drop_dia MAXLEVEL c.x c.y c.level))
        (printf (banner s) s).mesh)
      { printf (banner s) s with
        mesh := bas.refine
          (fun c => decide (refine_cond start_height drop_dia MAXLEVEL c.x c.y c.level))
          (printf (banner s) s).mesh
        f0 := bas.fraction interface_levelset
          (bas.refine
            (fun c => decide (refine_cond start_height drop_dia MAXLEVEL c.x c.y c.level))
            (printf (banner s) s).mesh) }
    have := hcell c (Or.inl hc)
    rw [h0]
    exact this
  refine ⟨key.1, key.2, ?_, ?_⟩
  · intro h1
    rw [key.2, h1, mul_one]
  · intro h0
    rw [key.2, h0, mul_zero]

/-- C8, on a two-cell mesh with a sharp interface, at the cell of the droplet centre. -/
theorem init_fields_witness :
    (⟨0, 5 / 1000, 6⟩ : Cell) ∈ (init bas_sharp (sim_start true mesh2)).mesh ∧
    (init bas_sharp (sim_start true mesh2)).f ⟨0, 5 / 1000, 6⟩
      = (init bas_sharp (sim_start true mesh2)).f0 ⟨0, 5 / 1000, 6⟩ ∧
    (init bas_sharp (sim_start true mesh2)).u_y ⟨0, 5 / 1000, 6⟩
      = -u0 * (init bas_sharp (sim_start true mesh2)).f0 ⟨0, 5 / 1000, 6⟩ :=
  have hc : (⟨0, 5 / 1000, 6⟩ : Cell) ∈ (init bas_sharp (sim_start true mesh2)).mesh := by
    rw [(init_frame bas_sharp (sim_start true mesh2)).2.2]
    exact List.mem_cons_self _ _
  ⟨hc, (init_fields bas_sharp (sim_start true mesh2) ⟨0, 5 / 1000, 6⟩ hc).1,
    (init_fields bas_sharp (sim_start true mesh2) ⟨0, 5 / 1000, 6⟩ hc).2.1⟩

/-! ## The banner and the log -/

theorem log_status_ok (i : Nat) (t_g : String) (s : Sim) (h : s.fopen_ok = true) :
    log_status i t_g s
      = Except.ok { s with logfptr := some ⟨3⟩, log := s.log ++ [logstr i t_g] } := by
  simp [log_status, fopen_a, fputs, fclose, h]

theorem log_status_fail (i : Nat) (t_g : String) (s : Sim) (h : s.fopen_ok = false) :
    log_status i t_g s = Except.error Fault.null_stream := by
  simp [log_status, fopen_a, fputs, h]

theorem end_event_ok (s : Sim) (h : s.fopen_ok = true) :
    end_event s = Except.ok
      { s with stdout := s.stdout ++ [banner s], logfptr := some ⟨3⟩
               log := s.log ++ [donestr s] } := by
  simp [end_event, fopen_a, fputs, fclose, printf, h, donestr]

theorem end_event_fail (s : Sim) (h : s.fopen_ok = false) :
    end_event s = Except.error Fault.null_stream := by
  simp [end_event, fopen_a, fputs, printf, h]

theorem banner_after_main (s s1 : Sim) (h : main s = Except.ok s1) :
    banner s1 = "Re: 1120, We:14\n" ∧ donestr s1 = "Re:1120, We:14\n" := by
  have hok : s.fopen_ok = true := by
    cases hb : s.fopen_ok with
    | true => rfl
    | false => simp [main, fopen_w, fclose, hb] at h
  rw [main_ok s hok] at h
  have hRe : s1.Re = 997 * u0 * drop_dia / (89 / 100000) := by
    cases h; rfl
  have hWe : s1.We = 997 * drop_dia * sq u0 / SIGMA := by
    cases h; rfl
  unfold banner donestr
  rw [hRe, hWe, c_round_Re, c_round_We]
  exact ⟨rfl, rfl⟩

/-- C4, as the code has it: at `t = 0` the `init` event prints the banner to standard
output and leaves the log file as it was; at `t = t_end` the `end` event prints the
banner and, the log file opening, appends the banner line to it. -/
theorem banner_print_and_log (bas : Basilisk) (s : Sim) :
    ((init bas s).stdout = s.stdout ++ [banner s] ∧ (init bas s).log = s.log) ∧
    (s.fopen_ok = true →
      ∃ s1 : Sim, end_event s = Except.ok s1 ∧
        s1.stdout = s.stdout ++ [banner s] ∧ s1.log = s.log ++ [donestr s]) := by
  refine ⟨⟨(init_frame bas s).1, (init_frame bas s).2.1⟩, ?_⟩
  intro h
  exact ⟨_, end_event_ok s h, rfl, rfl⟩

/-- C4 as amended, from the start state. -/
theorem banner_print_and_log_witness :
    (sim_start true mesh2).fopen_ok = true ∧
    ∃ s1 : Sim, end_event (sim_start true mesh2) = Except.ok s1 ∧
      s1.stdout = (sim_start true mesh2).stdout ++ [banner (sim_start true mesh2)] ∧
      s1.log = (sim_start true mesh2).log ++ [donestr (sim_start true mesh2)] :=
  ⟨rfl, (banner_print_and_log bas_sharp (sim_start true mesh2)).2 rfl⟩

/-- C4 as stated fails: run `main` and then `init` from the start state; the banner is
on standard output and the log file is still empty. -/
theorem init_does_not_log :
    ∃ s1 : Sim, main (sim_start true mesh2) = Except.ok s1 ∧
      (init bas_sharp s1).stdout = ["Re: 1120, We:14\n"] ∧
      (init bas_sharp s1).log = [] := by
  refine ⟨_, main_ok (sim_start true mesh2) rfl, ?_, ?_⟩
  · rw [(init_frame bas_sharp _).1,
      (banner_after_main _ _ (main_ok (sim_start true mesh2) rfl)).1]
    rfl
  · rw [(init_frame bas_sharp _).2.1]

/-- C7, as the code has it: `log_status` and `end` hand the result of `fopen` to
`fputs` and `fclose` unchecked.  When the open succeeds the line is appended and the
event completes; when it fails `fputs` is called on the null stream and the event
does not complete. -/
theorem log_write_unchecked (i : Nat) (t_g : String) (s : Sim) :
    (s.fopen_ok = true →
      (∃ s1 : Sim, log_status i t_g s = Except.ok s1 ∧ s1.log = s.log ++ [logstr i t_g]) ∧
      (∃ s2 : Sim, end_event s = Except.ok s2 ∧ s2.log = s.log ++ [donestr s])) ∧
    (s.fopen_ok = false →
      (fopen_a s).logfptr = none ∧
      fputs (logstr i t_g) (fopen_a s) = Except.error Fault.null_stream ∧
      log_status i t_g s = Except.error Fault.null_stream ∧
      end_event s = Except.error Fault.null_stream) := by
  constructor
  · intro h
    exact ⟨⟨_, log_status_ok i t_g s h, rfl⟩, ⟨_, end_event_ok s h, rfl⟩⟩
  · intro h
    refine ⟨by simp [fopen_a, h], by simp [fopen_a, fputs, h], log_status_fail i t_g s h,
      end_event_fail s h⟩

/-- C7 as amended, at iteration 7 with a log file that opens. -/
theorem log_write_unchecked_witness :
    (sim_start true mesh2).fopen_ok = true ∧
    (∃ s1 : Sim, log_status 7 "0.0007" (sim_start true mesh2) = Except.ok s1 ∧
      s1.log = (sim_start true mesh2).log ++ [logstr 7 "0.0007"]) ∧
    (∃ s2 : Sim, end_event (sim_start true mesh2) = Except.ok s2 ∧
      s2.log = (sim_start true mesh2).log ++ [donestr (sim_start true mesh2)]) :=
  ⟨rfl, (log_write_unchecked 7 "0.0007" (sim_start true mesh2)).1 rfl⟩

/-- C7 as stated fails: with a log file that cannot be opened, `log_status` at
iteration 7 and `end` both stop on the null stream instead of skipping the write. -/
theorem log_open_failure_aborts :
    log_status 7 "0.0007" (sim_start false mesh2) = Except.error Fault.null_stream ∧
    end_event (sim_start false mesh2) = Except.error Fault.null_stream ∧
    ¬ ∃ s1 : Sim, log_status 7 "0.0007" (sim_start false mesh2) = Except.ok s1 := by
  refine ⟨log_status_fail _ _ _ rfl, end_event_fail _ rfl, ?_⟩
  rintro ⟨s1, h⟩
  rw [log_status_fail _ _ _ rfl] at h
  cases h

/-! ## `init`: the refinement region -/

/-- C9: over the reals, with `drop_dia > 0`, the condition handed to `refine` holds for
a cell with centre `(x, y)` exactly when the centre is at distance less than
`sqrt(2) * drop_dia / 2` from `(0, start_height)` and the level is below `MAXLEVEL`. -/
theorem refine_cond_iff_distance (start_height drop_dia x y : ℝ) (MAXLEVEL level : Int)
    (hD : 0 < drop_dia) :
    refine_cond start_height drop_dia MAXLEVEL x y level ↔
      (Real.sqrt ((x - 0) ^ 2 + (y - start_height) ^ 2) < Real.sqrt 2 * drop_dia / 2 ∧
        level < MAXLEVEL) := by
  have hr : 0 < Real.sqrt 2 * drop_dia / 2 := by positivity
  have hsq : (Real.sqrt 2 * drop_dia / 2) ^ 2 = 2 * (drop_dia / 2 * (drop_dia / 2)) := by
    have h2 : Real.sqrt 2 ^ 2 = 2 := Real.sq_sqrt (by norm_num)
    calc (Real.sqrt 2 * drop_dia / 2) ^ 2
        = Real.sqrt 2 ^ 2 * (drop_dia / 2 * (drop_dia / 2)) := by ring
      _ = 2 * (drop_dia / 2 * (drop_dia / 2)) := by rw [h2]
  unfold refine_cond sq
  rw [Real.sqrt_lt' hr, hsq]
  have e : x * x + (y - start_height) * (y - start_height)
      = (x - 0) ^ 2 + (y - start_height) ^ 2 := by ring
  rw [e]

/-- C9, at the droplet centre with the compiled-in sizes. -/
theorem refine_cond_iff_distance_witness :
    (0 : ℝ) < 1 / 1000 ∧
    (refine_cond (5 / 1000 : ℝ) (1 / 1000) 8 0 (5 / 1000) 6 ↔
      (Real.sqrt (((0 : ℝ) - 0) ^ 2 + (5 / 1000 - 5 / 1000) ^ 2)
          < Real.sqrt 2 * (1 / 1000) / 2 ∧ (6 : Int) < 8)) :=
  ⟨by norm_num, refine_cond_iff_distance (5 / 1000) (1 / 1000) 0 (5 / 1000) 8 6 (by norm_num)⟩

/-! ## The order of the events -/

theorem fired_t_end :
    fired t_end = [EventId.log_status, EventId.end_event, EventId.movie, EventId.adapt] := by
  have h1 : ¬ (t_end = 0) := by norm_num [t_end]
  have h2 : (t_end / (1 / 10000) : ℚ) = ((300 : ℕ) : ℚ) := by norm_num [t_end]
  have h3 : (0 : ℚ) ≤ t_end := by norm_num [t_end]
  have d0 : Trigger.due t_end (Trigger.at_time 0) = false := by
    simp [Trigger.due, h1]
  have d1 : Trigger.due t_end Trigger.each_iteration = true := rfl
  have d2 : Trigger.due t_end (Trigger.at_time t_end) = true := by
    simp [Trigger.due]
  have d3 : Trigger.due t_end (Trigger.each_interval (1 / 10000)) = true := by
    simp only [Trigger.due, h2, Rat.den_natCast]
    simp [h3]
  simp only [fired, events, List.filter_cons, d0, d1, d2, d3]
  rfl

/-- C5, as the code has it: the driver defines its events in the order `init`,
`log_status`, `end`, `movie`, `adapt`; the events fired on a tick always come in that
order; on the tick `t = t_end`, where four are due, logging comes first, then the
end-check, then the snapshot, then the refinement. -/
theorem event_order :
    events.map Prod.fst = [EventId.init, EventId.log_status, EventId.end_event,
      EventId.movie, EventId.adapt] ∧
    (∀ t : ℚ, List.Sublist (fired t) [EventId.init, EventId.log_status, EventId.end_event,
      EventId.movie, EventId.adapt]) ∧
    fired t_end = [EventId.log_status, EventId.end_event, EventId.movie, EventId.adapt] := by
  refine ⟨rfl, ?_, fired_t_end⟩
  intro t
  have h : events.map Prod.fst = [EventId.init, EventId.log_status, EventId.end_event,
      EventId.movie, EventId.adapt] := rfl
  rw [← h]
  exact List.Sublist.map _ (List.filter_sublist _)

/-- C5 as stated fails: on the tick `t = t_end` the events due do not fire in the order
logging, refinement, snapshot, end-check. -/
theorem event_order_not_as_claimed :
    fired t_end ≠ [EventId.log_status, EventId.adapt, EventId.movie, EventId.end_event] := by
  rw [fired_t_end]
  decide

/-! ## The arguments of `adapt_wavelet` -/

/-- C6, as the code has it: `adapt` passes the four scalar fields `f`, `p`, `u.x`, `u.y`
and a tolerance vector of five entries, all `0.01`; the first four entries pair with the
four fields in their order, and the fifth has no field. -/
theorem adapt_arguments :
    adapt.fields = [Scalar.f, Scalar.p, Scalar.u_x, Scalar.u_y] ∧
    adapt.fields.length = 4 ∧
    adapt.max.length = 5 ∧
    adapt.max = List.replicate 5 (1 / 100) ∧
    field_tolerances adapt = [(Scalar.f, 1 / 100), (Scalar.p, 1 / 100),
      (Scalar.u_x, 1 / 100), (Scalar.u_y, 1 / 100)] ∧
    adapt.max.drop adapt.fields.length = [1 / 100] ∧
    adapt.maxlevel = MAXLEVEL := by
  exact ⟨rfl, rfl, rfl, rfl, rfl, rfl, rfl⟩

/-- C6 as stated fails: the tolerance vector does not have one entry per tracked field. -/
theorem adapt_tolerances_not_one_per_field :
    adapt.max.length ≠ adapt.fields.length := by
  decide

end Droplet
